import Mathlib

/-!
Verification of the Katacombs domain core (Hexagonal_Architecture_Kit).

The repository contains two parallel drafts of the same domain: the `game`
package (command handler, world, world builder, projection queries) and the
`katacombs` package (use case, entities, value objects).  Both are embedded
below; Python dicts are modelled as insertion-ordered association lists,
Python exceptions as `Except String`.
-/

namespace HexKit

/-- Decidable equality of `Except` results, for evaluating concrete runs. -/
def exceptDecEq {ε α : Type} [DecidableEq ε] [DecidableEq α] :
    DecidableEq (Except ε α) := fun a b =>
  match a, b with
  | .error e, .error e' =>
    if h : e = e' then isTrue (by rw [h]) else isFalse (by intro hh; cases hh; exact h rfl)
  | .error _, .ok _ => isFalse (by intro hh; cases hh)
  | .ok _, .error _ => isFalse (by intro hh; cases hh)
  | .ok v, .ok v' =>
    if h : v = v' then isTrue (by rw [h]) else isFalse (by intro hh; cases hh; exact h rfl)

instance {ε α : Type} [DecidableEq ε] [DecidableEq α] : DecidableEq (Except ε α) :=
  exceptDecEq

/-- Python `dict.get`: first binding for the key, if any. -/
def dictGet {α β : Type} [DecidableEq α] (k : α) : List (α × β) → Option β
  | [] => none
  | (k', v) :: rest => if k' = k then some v else dictGet k rest

/-- Python `d[k] = v`: overwrite in place keeping the key's original
position, else append at the end (dict insertion order). -/
def dictInsert {α β : Type} [DecidableEq α] (k : α) (v : β) : List (α × β) → List (α × β)
  | [] => [(k, v)]
  | (k', v') :: rest => if k' = k then (k', v) :: rest else (k', v') :: dictInsert k v rest

/-- Python `del d[k]`: remove the binding for `k` (keys are unique in a dict). -/
def dictErase {α β : Type} [DecidableEq α] (k : α) (d : List (α × β)) : List (α × β) :=
  d.filter (fun p => p.1 ≠ k)

/-- Whitespace characters stripped by Python `str.strip()` (the code
points with `str.isspace()` true in CPython): ASCII whitespace, the
ASCII separator controls U+001C..U+001F, next line U+0085, no-break
space U+00A0, Ogham space mark U+1680, the typographic spaces
U+2000..U+200A, the line and paragraph separators U+2028 and U+2029,
narrow no-break space U+202F, medium mathematical space U+205F, and
ideographic space U+3000. -/
def isPyWhitespace (c : Char) : Bool :=
  c = ' ' || c = '\t' || c = '\n' || c = '\x0b' || c = '\x0c' || c = '\r' ||
  c = '\x1c' || c = '\x1d' || c = '\x1e' || c = '\x1f' ||
  c = '\x85' || c = '\xa0' ||
  c = '\u1680' ||
  ('\u2000' ≤ c && c ≤ '\u200a') ||
  c = '\u2028' || c = '\u2029' || c = '\u202f' || c = '\u205f' || c = '\u3000'

/-- Python `str.strip()` on a character list. -/
def pyStripList (l : List Char) : List Char :=
  ((l.dropWhile isPyWhitespace).reverse.dropWhile isPyWhitespace).reverse

/-- Python `str.strip()`. -/
def pyStrip (s : String) : String :=
  ⟨pyStripList s.data⟩

/-- Consume exactly `n` characters from `[0-9]`, returning the rest. -/
def takeDigits : Nat → List Char → Option (List Char)
  | 0, l => some l
  | _ + 1, [] => none
  | n + 1, c :: l => if c.isDigit then takeDigits n l else none

/-- Consume one expected literal character. -/
def expectChar (c : Char) : List Char → Option (List Char)
  | [] => none
  | c' :: rest => if c' = c then some rest else none

/-- Consume the regex body `[0-9]{6}-[0-9]{12}-[0-9]{8}`, returning the rest. -/
def sidRest (l : List Char) : Option (List Char) :=
  ((((takeDigits 6 l).bind (expectChar '-')).bind (takeDigits 12)).bind
    (expectChar '-')).bind (takeDigits 8)

/-- Source: `Sid._is_valid`: `re.match(r"^[0-9]{6}-[0-9]{12}-[0-9]{8}$", value)`.
Python's `$` matches at the end of the string or just before a trailing
newline, so a single trailing `'\n'` is accepted. -/
def sidIsValid (s : String) : Bool :=
  match sidRest s.data with
  | some rest => rest = [] || rest = ['\n']
  | none => false

/-- Source: `Sid` value object (identical in both package variants): a wrapped
string that passed `_is_valid` in `__post_init__`. -/
structure Sid where
  value : String
  valid : sidIsValid value = true

instance : DecidableEq Sid := fun a b =>
  if h : a.value = b.value then
    isTrue (by cases a; cases b; cases h; rfl)
  else
    isFalse (by intro hh; cases hh; exact h rfl)

/-- Source: `Sid(value)`: construction validates and raises `ValueError` on failure. -/
def Sid.make (value : String) : Except String Sid :=
  if h : sidIsValid value then .ok ⟨value, h⟩
  else .error ("Invalid Sid format: " ++ value)

/-- Source: `str(sid)` returns the underlying string. -/
def Sid.str (s : Sid) : String :=
  s.value

/-- The sid pattern as the spec words it: exactly 6, 12 and 8 digits
separated by hyphens, and nothing more. -/
def SpecSidPattern (l : List Char) : Prop :=
  ∃ a b c : List Char,
    a.length = 6 ∧ b.length = 12 ∧ c.length = 8 ∧
    a.all Char.isDigit = true ∧ b.all Char.isDigit = true ∧ c.all Char.isDigit = true ∧
    l = a ++ '-' :: (b ++ '-' :: c)

namespace Game

/-- Source: `game` variant `Direction` enumeration. -/
inductive Direction where
  | north
  | south
  | east
  | west
deriving DecidableEq

/-- Source: `Direction.value` strings. -/
def Direction.val : Direction → String
  | .north => "north"
  | .south => "south"
  | .east => "east"
  | .west => "west"

/-- Source: `game` variant `Action` enumeration. -/
inductive Action where
  | pick
  | use
deriving DecidableEq

/-- Source: `game` variant `Item` dataclass (validation of `__post_init__` is in
`Item.make`). -/
structure Item where
  sid : Sid
  name : String
  description : String
  available_actions : List Action := []
deriving DecidableEq

/-- Source: `Item(...)` construction: `__post_init__` rejects blank names and
descriptions. -/
def Item.make (sid : Sid) (name description : String) (available_actions : List Action) :
    Except String Item :=
  if pyStrip name = "" then .error "Item name cannot be empty"
  else if pyStrip description = "" then .error "Item description cannot be empty"
  else .ok { sid, name, description, available_actions }

/-- Modelled from the spec: the `game` package's `Location` entity (its
module `game/domain/world/location.py` is not in the repository snapshot).
Spec section 3: identity sid, description, a mapping from direction to an
optional destination sid, and an ordered list of items present. -/
structure Location where
  sid : Sid
  description : String
  exits : List (Direction × Option Sid) := []
  items : List Item := []
deriving DecidableEq

/-- Modelled from the spec: `add_exit(direction, destination|null)`
idempotently overwrites any existing mapping for that direction. -/
def Location.add_exit (loc : Location) (d : Direction) (dest : Option Sid) : Location :=
  { loc with exits := dictInsert d dest loc.exits }

/-- Modelled from the spec: `get_available_directions()` returns directions
whose destination is non-null, in the mapping's insertion order. -/
def Location.get_available_directions (loc : Location) : List Direction :=
  (loc.exits.filter (fun p => p.2.isSome)).map (·.1)

/-- Modelled from the spec: `add_item(item)` appends. -/
def Location.add_item (loc : Location) (item : Item) : Location :=
  { loc with items := loc.items ++ [item] }

/-- Source: `game` variant `World`: defensively copied locations dict plus the
starting location sid, validated to be a key at construction (the `inv`
field records the established invariant). -/
structure World where
  locations : List (Sid × Location)
  startingLocationSid : Sid
  inv : (dictGet startingLocationSid locations).isSome = true

/-- Source: `World.__init__`: copies the dict and raises `ValueError` when the
starting sid is not among the locations. -/
def World.make (locations : List (Sid × Location)) (startingLocationSid : Sid) :
    Except String World :=
  if h : (dictGet startingLocationSid locations).isSome then
    .ok ⟨locations, startingLocationSid, h⟩
  else
    .error ("Starting location " ++ startingLocationSid.value ++ " not found in world")

/-- Source: `World.get_location`. -/
def World.get_location (w : World) (sid : Sid) : Option Location :=
  dictGet sid w.locations

/-- Source: `World.get_starting_location`: total thanks to the construction
invariant (`self._locations[self._starting_location_sid]` cannot miss). -/
def World.get_starting_location (w : World) : Location :=
  (dictGet w.startingLocationSid w.locations).get w.inv

/-- Source: `World.has_location`. -/
def World.has_location (w : World) (sid : Sid) : Bool :=
  (dictGet sid w.locations).isSome

/-- Source: `game` variant `WorldBuilder` state: accumulated locations and an
optional starting sid. -/
structure WorldBuilder where
  locations : List (Sid × Location) := []
  startingLocationSid : Option Sid := none

/-- A fresh `WorldBuilder()`. -/
def WorldBuilder.empty : WorldBuilder :=
  {}

/-- Source: `WorldBuilder.add_location`: keyed by the location's own sid. -/
def WorldBuilder.add_location (b : WorldBuilder) (loc : Location) : WorldBuilder :=
  { b with locations := dictInsert loc.sid loc b.locations }

/-- Source: `WorldBuilder.set_starting_location`. -/
def WorldBuilder.set_starting_location (b : WorldBuilder) (sid : Sid) : WorldBuilder :=
  { b with startingLocationSid := some sid }

/-- Source: `WorldBuilder._build`: fails when no starting location was set,
otherwise defers to `World.__init__` (which checks membership). -/
def WorldBuilder.build (b : WorldBuilder) : Except String World :=
  match b.startingLocationSid with
  | none => .error "Starting location must be set before building world"
  | some sid => World.make b.locations sid

/-- Source: `WorldBuilder.create_starter_world`: clears prior state, then builds
the fixed three-location starter graph with the torch in the entrance. -/
def WorldBuilder.create_starter_world (_b : WorldBuilder)
    (entranceSid northCorridorSid eastChamberSid torchSid : Sid) : Except String World :=
  let cleared : WorldBuilder := WorldBuilder.empty
  let entranceDescription :=
    "You are in the entrance hall of the ancient Katacombs. " ++
    "Torches flicker on the stone walls, casting dancing shadows. " ++
    "You can feel a cool breeze coming from deeper in the tunnels."
  let entranceLocation : Location := { sid := entranceSid, description := entranceDescription }
  let northCorridor : Location :=
    { sid := northCorridorSid,
      description :=
        "A narrow stone corridor extends to the north. The walls are carved with ancient symbols." }
  let eastChamber : Location :=
    { sid := eastChamberSid,
      description := "A small chamber with a low ceiling. Water drips steadily from somewhere above." }
  let entranceLocation :=
    (entranceLocation.add_exit .north (some northCorridorSid)).add_exit .east (some eastChamberSid)
  let northCorridor := northCorridor.add_exit .south (some entranceSid)
  let eastChamber := eastChamber.add_exit .west (some entranceSid)
  let torch : Item :=
    { sid := torchSid, name := "Torch",
      description := "A flickering torch that provides light in the darkness",
      available_actions := [.pick, .use] }
  let entranceLocation := entranceLocation.add_item torch
  let b1 : WorldBuilder :=
    { cleared with
      locations :=
        dictInsert eastChamberSid eastChamber
          (dictInsert northCorridorSid northCorridor
            (dictInsert entranceSid entranceLocation cleared.locations)),
      startingLocationSid := some entranceSid }
  b1.build

/-- One call in a builder call sequence. -/
inductive BuilderOp where
  | addLocation (loc : Location)
  | setStartingLocation (sid : Sid)

/-- Apply a sequence of builder calls. -/
def applyOps (ops : List BuilderOp) (b : WorldBuilder) : WorldBuilder :=
  ops.foldl
    (fun b op =>
      match op with
      | .addLocation loc => b.add_location loc
      | .setStartingLocation sid => b.set_starting_location sid)
    b

/-- Sids of the locations added by a call sequence. -/
def addedSids (ops : List BuilderOp) : List Sid :=
  ops.filterMap
    (fun op =>
      match op with
      | .addLocation loc => some loc.sid
      | .setStartingLocation _ => none)

/-- The last starting sid set by a call sequence, if any, falling back to
the initial value. -/
def lastSetFrom (init : Option Sid) (ops : List BuilderOp) : Option Sid :=
  ops.foldl
    (fun acc op =>
      match op with
      | .addLocation _ => acc
      | .setStartingLocation sid => some sid)
    init

/-- Source: `game` variant `Bag`: a list of item sids. -/
structure Bag where
  item_sids : List Sid := []
deriving DecidableEq

/-- Source: `Bag.item_count`. -/
def Bag.item_count (b : Bag) : Nat :=
  b.item_sids.length

/-- Modelled from the spec: the `game` package's `Player` aggregate, as a
record (spec section 3: identifier, trimmed display name, current
`location_sid` reference, owned `Bag`, `is_active` flag). The snapshot's
`game/domain/player/player.py` is a stale draft importing the absent
location module; every caller and test in the `game` package reads
`player.location_sid`, as the spec describes. -/
structure Player where
  sid : Sid
  name : String
  location_sid : Sid
  bag : Bag
  is_active : Bool := true
deriving DecidableEq

/-- Source: `PlayerDetailsDto` from the read-side query contract. -/
structure PlayerDetailsDto where
  sid : String
  name : String
  location_sid : String
  location_description : String
  bag_item_count : Nat
  is_active : Bool
deriving DecidableEq

/-- Source: `InMemoryPlayerProjectionRepository.get_player_details`: constructs a
`Sid` from the raw string (which raises on malformed input), looks the
player up, and denormalizes; `None` signals an absent player. -/
def get_player_details (players : List (Sid × Player)) (world : World)
    (player_sid : String) : Except String (Option PlayerDetailsDto) :=
  match Sid.make player_sid with
  | .error e => .error e
  | .ok sid =>
    match dictGet sid players with
    | none => .ok none
    | some player =>
      let location_description :=
        match world.get_location player.location_sid with
        | some location => location.description
        | none => "Unknown location"
      .ok (some
        { sid := player.sid.value,
          name := player.name,
          location_sid := player.location_sid.value,
          location_description,
          bag_item_count := player.bag.item_count,
          is_active := player.is_active })

/-- A heap of Python dict objects, for stating aliasing properties: dict
references are numeric ids, `next` is the next fresh id. -/
structure Heap where
  dicts : Nat → Option (List (Sid × Location))
  next : Nat

/-- Dereference a dict. -/
def Heap.read (h : Heap) (r : Nat) : Option (List (Sid × Location)) :=
  h.dicts r

/-- Overwrite the dict object behind an existing reference. -/
def Heap.write (h : Heap) (r : Nat) (d : List (Sid × Location)) : Heap :=
  { h with dicts := fun n => if n = r then some d else h.dicts n }

/-- Allocate a fresh dict object. -/
def Heap.alloc (h : Heap) (d : List (Sid × Location)) : Heap × Nat :=
  ({ dicts := fun n => if n = h.next then some d else h.dicts n, next := h.next + 1 }, h.next)

/-- A `World` whose locations dict lives on the heap. -/
structure WorldRef where
  locationsRef : Nat
  startingLocationSid : Sid

/-- Source: `World.get_all_locations` over the heap: `self._locations.copy()`
allocates a fresh dict holding the same bindings. -/
def getAllLocationsH (h : Heap) (w : WorldRef) : Heap × Nat :=
  h.alloc ((h.read w.locationsRef).getD [])

/-- Source: `World.has_location` over the heap. -/
def hasLocationH (h : Heap) (w : WorldRef) (sid : Sid) : Bool :=
  match h.read w.locationsRef with
  | some d => (dictGet sid d).isSome
  | none => false

/-- Source: `World.get_location` over the heap. -/
def getLocationH (h : Heap) (w : WorldRef) (sid : Sid) : Option Location :=
  (h.read w.locationsRef).bind (dictGet sid)

/-- A mutation of a dict object: insertion or deletion. -/
inductive DictOp where
  | insert (k : Sid) (v : Location)
  | erase (k : Sid)

/-- Run one mutation on the dict object behind reference `r`. -/
def applyDictOp (h : Heap) (r : Nat) (op : DictOp) : Heap :=
  let d := (h.read r).getD []
  match op with
  | .insert k v => h.write r (dictInsert k v d)
  | .erase k => h.write r (dictErase k d)

/-- Run a sequence of mutations on the dict object behind reference `r`. -/
def applyDictOps (h : Heap) (r : Nat) (ops : List DictOp) : Heap :=
  ops.foldl (fun h op => applyDictOp h r op) h

end Game

namespace Kata

/-- Source: `katacombs` variant `Direction` enumeration. -/
inductive Direction where
  | north
  | south
  | east
  | west
  | up
  | down
deriving DecidableEq

/-- Source: `Direction.value` strings. -/
def Direction.val : Direction → String
  | .north => "north"
  | .south => "south"
  | .east => "east"
  | .west => "west"
  | .up => "up"
  | .down => "down"

/-- Source: `katacombs` variant `Action` enumeration. -/
inductive Action where
  | «open»
  | close
  | pick
  | drop
  | use
deriving DecidableEq

/-- Source: `katacombs` variant `Item` dataclass; `__eq__` compares by sid only,
which the collection operations below rely on. -/
structure Item where
  sid : Sid
  name : String
  description : String
  available_actions : List Action := []
deriving DecidableEq

/-- Python `Item.__eq__`: identity comparison by sid alone. -/
def Item.eqv (a b : Item) : Bool :=
  a.sid = b.sid

/-- Source: `Item(...)` construction with the `__post_init__` checks. -/
def Item.make (sid : Sid) (name description : String) (available_actions : List Action) :
    Except String Item :=
  if pyStrip name = "" then .error "Item name cannot be empty"
  else if pyStrip description = "" then .error "Item description cannot be empty"
  else .ok { sid, name, description, available_actions }

/-- Source: `katacombs` variant `Location` dataclass: direction-to-optional-sid
exits dict plus the items physically present. -/
structure Location where
  sid : Sid
  description : String
  exits : List (Direction × Option Sid) := []
  items : List Item := []
deriving DecidableEq

/-- Source: `Location(...)` construction: `__post_init__` rejects blank
descriptions. -/
def Location.make (sid : Sid) (description : String) (exits : List (Direction × Option Sid))
    (items : List Item) : Except String Location :=
  if pyStrip description = "" then .error "Location description cannot be empty"
  else .ok { sid, description, exits, items }

/-- Source: `Location.add_exit`: `self.exits[direction] = destination_sid`. -/
def Location.add_exit (loc : Location) (d : Direction) (dest : Option Sid) : Location :=
  { loc with exits := dictInsert d dest loc.exits }

/-- Source: `Location.get_exit_destination`. -/
def Location.get_exit_destination (loc : Location) (d : Direction) : Option Sid :=
  (dictGet d loc.exits).getD none

/-- Source: `Location.get_available_directions`: directions whose destination is
non-null, in dict order. -/
def Location.get_available_directions (loc : Location) : List Direction :=
  (loc.exits.filter (fun p => p.2.isSome)).map (·.1)

/-- Source: `Location.add_item`: `if item not in self.items: append` — membership
through sid-based `Item.__eq__`. -/
def Location.add_item (loc : Location) (item : Item) : Location :=
  if loc.items.any (fun i => i.eqv item) then loc
  else { loc with items := loc.items ++ [item] }

/-- Source: `Location.find_item`: linear scan by sid. -/
def Location.find_item (loc : Location) (item_sid : Sid) : Option Item :=
  loc.items.find? (fun i => i.sid = item_sid)

/-- Source: `katacombs` variant `Bag`: owned items plus a capacity bound. -/
structure Bag where
  items : List Item := []
  max_capacity : Nat := 10
deriving DecidableEq

/-- Source: `Bag.is_full`. -/
def Bag.is_full (b : Bag) : Bool :=
  b.items.length ≥ b.max_capacity

/-- Source: `Bag.add_item`: raises when full, otherwise appends unless an item
with the same sid is already present (sid-based `Item.__eq__`). -/
def Bag.add_item (b : Bag) (item : Item) : Except String Bag :=
  if b.is_full then .error "Bag is full, cannot add more items"
  else if b.items.any (fun i => i.eqv item) then .ok b
  else .ok { b with items := b.items ++ [item] }

/-- Source: `Bag.is_empty`. -/
def Bag.is_empty (b : Bag) : Bool :=
  b.items.length = 0

/-- Source: `katacombs` variant `Player` aggregate. -/
structure Player where
  sid : Sid
  name : String
  location : Location
  bag : Bag
  is_active : Bool := true
deriving DecidableEq

/-- Source: `Player.create`: the only construction path; trims the name and
rejects names that are blank after trimming. -/
def Player.create (sid : Sid) (name : String) (location : Location) (bag : Bag) :
    Except String Player :=
  if pyStrip name = "" then .error "Player name cannot be empty"
  else .ok { sid, name := pyStrip name, location, bag, is_active := true }

/-- Modelled from the spec: item DTO `{sid, name, description}` of the
success DTO shape in spec section 6 (the snapshot's
`katacombs/application/dtos/start_game_dto.py` is a stale draft lacking
the `PlayerData` family that the use case builds). -/
structure ItemData where
  sid : String
  name : String
  description : String
deriving DecidableEq

/-- Modelled from the spec: location DTO `{description, exits, items}`. -/
structure LocationData where
  description : String
  exits : List String
  items : List ItemData
deriving DecidableEq

/-- Modelled from the spec: bag DTO `{items}`. -/
structure BagData where
  items : List ItemData
deriving DecidableEq

/-- Modelled from the spec: player DTO `{sid, name, location, bag}`. -/
structure PlayerData where
  sid : String
  name : String
  location : LocationData
  bag : BagData
deriving DecidableEq

/-- Modelled from the spec: command DTO `{player_name, player_sid}`. -/
structure StartGameCommand where
  player_name : String
  player_sid : String

/-- Modelled from the spec: the start-game response, either a success
carrying player data or an error carrying a message. -/
structure StartGameResponse where
  success : Bool
  player_data : Option PlayerData := none
  error_message : Option String := none
deriving DecidableEq

/-- Source: `StartGameResponse.success_response`. -/
def StartGameResponse.success_response (pd : PlayerData) : StartGameResponse :=
  { success := true, player_data := some pd }

/-- Source: `StartGameResponse.error_response`. -/
def StartGameResponse.error_response (msg : String) : StartGameResponse :=
  { success := false, error_message := some msg }

/-- Source: `StartGameUseCase._convert_player_to_data`. -/
def convert_player_to_data (player : Player) : PlayerData :=
  let location_items :=
    player.location.items.map
      (fun item => ItemData.mk item.sid.value item.name item.description)
  let location_data : LocationData :=
    { description := player.location.description,
      exits := player.location.get_available_directions.map Direction.val,
      items := location_items }
  let bag_items :=
    player.bag.items.map
      (fun item => ItemData.mk item.sid.value item.name item.description)
  { sid := player.sid.value, name := player.name, location := location_data,
    bag := BagData.mk bag_items }

/-- Source: `StartGameUseCase.execute`: the location repository's
`find_starting_location()` result is passed in explicitly; the
`player_repository.save` call does not affect the response and is elided.
`ValueError`s from `Sid` and `Player.create` are caught and turned into
error responses with the original message. -/
def execute (startingLocation : Option Location) (command : StartGameCommand) :
    StartGameResponse :=
  match startingLocation with
  | none => StartGameResponse.error_response "No starting location found"
  | some starting_location =>
    match Sid.make command.player_sid with
    | .error e => StartGameResponse.error_response e
    | .ok player_sid =>
      let empty_bag : Bag := {}
      match Player.create player_sid command.player_name starting_location empty_bag with
      | .error e => StartGameResponse.error_response e
      | .ok player => StartGameResponse.success_response (convert_player_to_data player)

/-- Run a sequence of `add_exit` calls on a location. -/
def applyAddExits (calls : List (Direction × Option Sid)) (loc : Location) : Location :=
  calls.foldl (fun loc c => loc.add_exit c.1 c.2) loc

/-- The destination recorded by the last `add_exit` call for direction
`d`, falling back to `init` when the sequence never writes `d`. -/
def lastExitWrite (d : Direction) (init : Option (Option Sid))
    (calls : List (Direction × Option Sid)) : Option (Option Sid) :=
  calls.foldl (fun acc c => if c.1 = d then some c.2 else acc) init

/-- Whether the last `add_exit` call for `d` in the sequence left a
non-null destination. -/
def lastExitNonNull (d : Direction) (calls : List (Direction × Option Sid)) : Bool :=
  match lastExitWrite d none calls with
  | some (some _) => true
  | _ => false

end Kata

/-- Keys of a dict in insertion order, starting from `init`, after the
given keys are inserted (first occurrence fixes a key's position). -/
def firstOccFrom {α : Type} [DecidableEq α] (init : List α) (ks : List α) : List α :=
  ks.foldl (fun acc k => if acc.contains k then acc else acc ++ [k]) init

/-- Whether `pat` occurs as a contiguous substring of `l` (Python `in`). -/
def isSubstring (pat : List Char) : List Char → Bool
  | [] => pat.isEmpty
  | c :: rest => pat.isPrefixOf (c :: rest) || isSubstring pat rest

/-- Sample identifiers for concrete runs. -/
def sampleSid1 : Sid :=
  ⟨"100000-100000000000-10000000", by decide⟩

def sampleSid2 : Sid :=
  ⟨"200000-200000000000-20000000", by decide⟩

def sampleSid3 : Sid :=
  ⟨"300000-300000000000-30000000", by decide⟩

def sampleSid4 : Sid :=
  ⟨"400000-400000000000-40000000", by decide⟩

/-- A sample `katacombs` location for concrete runs. -/
def sampleKataLocation : Kata.Location :=
  { sid := sampleSid1, description := "A room." }

/-- A sample `katacombs` item for concrete runs. -/
def sampleKataItem : Kata.Item :=
  { sid := sampleSid1, name := "Torch", description := "A torch." }

/-- A sample `game` location for concrete runs. -/
def sampleGameLocation : Game.Location :=
  { sid := sampleSid1, description := "A room." }

/-- A sample single-location `game` world for concrete runs. -/
def sampleGameWorld : Game.World :=
  ⟨[(sampleSid1, sampleGameLocation)], sampleSid1, by decide⟩

/-- A sample heap holding the sample world's locations dict at id 0. -/
def sampleHeap : Game.Heap :=
  { dicts := fun n => if n = 0 then some [(sampleSid1, sampleGameLocation)] else none,
    next := 1 }

/-- The sample world as a heap reference. -/
def sampleWorldRef : Game.WorldRef :=
  { locationsRef := 0, startingLocationSid := sampleSid1 }


/-! ## Helper lemmas -/

/-- One-key probe of a `dictInsert`. -/
theorem dictGet_insert {α β : Type} [DecidableEq α] (k k' : α) (v : β) (d : List (α × β)) :
    dictGet k (dictInsert k' v d) = if k' = k then some v else dictGet k d := by
  induction d with
  | nil => simp [dictInsert, dictGet]
  | cons p rest ih =>
    obtain ⟨k0, v0⟩ := p
    by_cases h : k0 = k'
    · subst h
      by_cases hk : k0 = k <;> simp [dictInsert, dictGet, hk]
    · by_cases h2 : k0 = k
      · subst h2
        have hne : k' ≠ k0 := fun hh => h hh.symm
        simp [dictInsert, h, dictGet, hne]
      · simp [dictInsert, h, dictGet, h2, ih]

/-- Keys after a `dictInsert`: existing keys keep their position, a new key
goes to the back. -/
theorem keys_insert {α β : Type} [DecidableEq α] (k : α) (v : β) (d : List (α × β)) :
    (dictInsert k v d).map Prod.fst =
      if (d.map Prod.fst).contains k then d.map Prod.fst
      else d.map Prod.fst ++ [k] := by
  induction d with
  | nil => simp [dictInsert]
  | cons p rest ih =>
    obtain ⟨k0, v0⟩ := p
    by_cases h : k0 = k
    · subst h
      simp [dictInsert]
    · have hbeq : (k == k0) = false := by
        simp only [beq_eq_false_iff_ne, ne_eq]
        exact fun hh => h hh.symm
      simp only [dictInsert, if_neg h, List.map_cons, List.contains_cons, hbeq,
        Bool.false_or, ih]
      split_ifs <;> rfl

/-- First-occurrence key accumulation keeps keys distinct. -/
theorem firstOccFrom_nodup {α : Type} [DecidableEq α] (ks : List α) (init : List α)
    (h : init.Nodup) : (firstOccFrom init ks).Nodup := by
  induction ks generalizing init with
  | nil => exact h
  | cons k rest ih =>
    by_cases hc : k ∈ init
    · have hstep : firstOccFrom init (k :: rest) = firstOccFrom init rest := by
        simp only [firstOccFrom, List.foldl_cons]
        congr 1
        simp [List.elem_iff, hc]
      rw [hstep]
      exact ih init h
    · have hstep : firstOccFrom init (k :: rest) = firstOccFrom (init ++ [k]) rest := by
        simp only [firstOccFrom, List.foldl_cons]
        congr 1
        simp [List.elem_iff, hc]
      rw [hstep]
      refine ih (init ++ [k]) ?_
      simp [List.nodup_append, h, hc]

/-- In a dict with distinct keys, lookup is the same as membership. -/
theorem dictGet_eq_some_iff_mem {α β : Type} [DecidableEq α] (e : List (α × β))
    (h : (e.map Prod.fst).Nodup) (k : α) (v : β) :
    dictGet k e = some v ↔ (k, v) ∈ e := by
  induction e with
  | nil => simp [dictGet]
  | cons p rest ih =>
    obtain ⟨k0, v0⟩ := p
    simp only [List.map_cons, List.nodup_cons] at h
    obtain ⟨hk0, hrest⟩ := h
    by_cases hk : k0 = k
    · subst hk
      have hd : dictGet k0 ((k0, v0) :: rest) = some v0 := by simp [dictGet]
      rw [hd]
      simp only [List.mem_cons]
      constructor
      · intro hv
        injection hv with hv
        exact Or.inl (by rw [hv])
      · rintro (hv | hv)
        · injection hv with h1 h2
          rw [h2]
        · exact absurd (List.mem_map.mpr ⟨(k0, v), hv, rfl⟩) hk0
    · have hd : dictGet k ((k0, v0) :: rest) = dictGet k rest := by simp [dictGet, hk]
      rw [hd, ih hrest]
      simp only [List.mem_cons]
      constructor
      · exact fun hm => Or.inr hm
      · rintro (hv | hv)
        · injection hv with h1 h2
          exact absurd h1.symm hk
        · exact hv

/-- Characterization of `takeDigits`: it strips exactly `n` digits. -/
theorem takeDigits_some_iff (n : Nat) (l r : List Char) :
    takeDigits n l = some r ↔
      ∃ p, l = p ++ r ∧ p.length = n ∧ p.all Char.isDigit = true := by
  induction n generalizing l with
  | zero =>
    constructor
    · intro h
      have hl : l = r := by simpa [takeDigits] using h
      exact ⟨[], by simpa using hl, rfl, rfl⟩
    · rintro ⟨p, hl, hp, -⟩
      have hpe : p = [] := List.length_eq_zero.mp hp
      subst hpe
      have hlr : l = r := by simpa using hl
      simp [takeDigits, hlr]
  | succ n ih =>
    cases l with
    | nil =>
      constructor
      · intro h
        exact absurd h (by simp [takeDigits])
      · rintro ⟨p, hl, hp, -⟩
        exfalso
        have := congrArg List.length hl
        simp [hp] at this
        omega
    | cons c cs =>
      by_cases hc : c.isDigit
      · rw [show takeDigits (n + 1) (c :: cs) = takeDigits n cs from by
          simp [takeDigits, hc], ih]
        constructor
        · rintro ⟨p, hl, hp, hd⟩
          exact ⟨c :: p, by simp [hl], by simp [hp], by simp [List.all_cons, hc, hd]⟩
        · rintro ⟨p, hl, hp, hd⟩
          cases p with
          | nil => simp at hp
          | cons q qs =>
            rw [List.cons_append] at hl
            injection hl with h1 h2
            subst h1
            simp only [List.all_cons, Bool.and_eq_true] at hd
            exact ⟨qs, h2, by simpa using hp, hd.2⟩
      · constructor
        · intro h
          exact absurd h (by simp [takeDigits, hc])
        · rintro ⟨p, hl, hp, hd⟩
          exfalso
          cases p with
          | nil => simp at hp
          | cons q qs =>
            rw [List.cons_append] at hl
            injection hl with h1 h2
            subst h1
            simp only [List.all_cons, Bool.and_eq_true] at hd
            exact hc hd.1

/-- Characterization of `expectChar`. -/
theorem expectChar_some_iff (c : Char) (l r : List Char) :
    expectChar c l = some r ↔ l = c :: r := by
  cases l with
  | nil => simp [expectChar]
  | cons c2 rest =>
    by_cases h : c2 = c
    · subst h
      simp [expectChar]
    · simp [expectChar, h]

/-- Characterization of the full `sidRest` chain. -/
theorem sidRest_some_iff (l r : List Char) :
    sidRest l = some r ↔
      ∃ a b c : List Char,
        a.length = 6 ∧ b.length = 12 ∧ c.length = 8 ∧
        a.all Char.isDigit = true ∧ b.all Char.isDigit = true ∧ c.all Char.isDigit = true ∧
        l = a ++ '-' :: (b ++ '-' :: (c ++ r)) := by
  unfold sidRest
  constructor
  · intro h
    rw [Option.bind_eq_some] at h
    obtain ⟨l4, h4, h8⟩ := h
    rw [Option.bind_eq_some] at h4
    obtain ⟨l3, h3, hd2⟩ := h4
    rw [Option.bind_eq_some] at h3
    obtain ⟨l2, h2, h12⟩ := h3
    rw [Option.bind_eq_some] at h2
    obtain ⟨l1, h6, hd1⟩ := h2
    rw [takeDigits_some_iff] at h6 h12 h8
    rw [expectChar_some_iff] at hd1 hd2
    obtain ⟨a, hla, ha6, had⟩ := h6
    obtain ⟨b, hlb, hb12, hbd⟩ := h12
    obtain ⟨c, hlc, hc8, hcd⟩ := h8
    refine ⟨a, b, c, ha6, hb12, hc8, had, hbd, hcd, ?_⟩
    subst hla hd1 hlb hd2 hlc
    rfl
  · rintro ⟨a, b, c, ha6, hb12, hc8, had, hbd, hcd, rfl⟩
    have h6 : takeDigits 6 (a ++ '-' :: (b ++ '-' :: (c ++ r))) =
        some ('-' :: (b ++ '-' :: (c ++ r))) :=
      (takeDigits_some_iff _ _ _).mpr ⟨a, rfl, ha6, had⟩
    have h12 : takeDigits 12 (b ++ '-' :: (c ++ r)) = some ('-' :: (c ++ r)) :=
      (takeDigits_some_iff _ _ _).mpr ⟨b, rfl, hb12, hbd⟩
    have h8 : takeDigits 8 (c ++ r) = some r :=
      (takeDigits_some_iff _ _ _).mpr ⟨c, rfl, hc8, hcd⟩
    rw [h6]
    simp only [Option.some_bind]
    rw [show expectChar '-' ('-' :: (b ++ '-' :: (c ++ r))) = some (b ++ '-' :: (c ++ r)) from
      (expectChar_some_iff _ _ _).mpr rfl]
    simp only [Option.some_bind]
    rw [h12]
    simp only [Option.some_bind]
    rw [show expectChar '-' ('-' :: (c ++ r)) = some (c ++ r) from
      (expectChar_some_iff _ _ _).mpr rfl]
    simp only [Option.some_bind]
    exact h8

/-- The regex match (with Python's end-of-line `$`) against the spec's
exact pattern: equal up to one optional trailing newline. -/
theorem sidIsValid_iff (s : String) :
    sidIsValid s = true ↔
      (SpecSidPattern s.data ∨ ∃ l, s.data = l ++ ['\n'] ∧ SpecSidPattern l) := by
  unfold sidIsValid
  cases hr : sidRest s.data with
  | none =>
    constructor
    · intro h
      cases h
    · rintro (hspec | ⟨l, hl, hspec⟩)
      · obtain ⟨a, b, c, ha6, hb12, hc8, had, hbd, hcd, heq⟩ := hspec
        have : sidRest s.data = some [] := by
          rw [sidRest_some_iff]
          refine ⟨a, b, c, ha6, hb12, hc8, had, hbd, hcd, ?_⟩
          rw [heq]
          simp
        rw [hr] at this
        cases this
      · obtain ⟨a, b, c, ha6, hb12, hc8, had, hbd, hcd, heq⟩ := hspec
        have : sidRest s.data = some ['\n'] := by
          rw [sidRest_some_iff]
          refine ⟨a, b, c, ha6, hb12, hc8, had, hbd, hcd, ?_⟩
          rw [hl, heq]
          simp
        rw [hr] at this
        cases this
  | some rest =>
    simp only [Bool.or_eq_true, decide_eq_true_eq]
    constructor
    · rintro (hnil | hnl)
      · subst hnil
        left
        obtain ⟨a, b, c, ha6, hb12, hc8, had, hbd, hcd, heq⟩ :=
          (sidRest_some_iff s.data []).mp hr
        refine ⟨a, b, c, ha6, hb12, hc8, had, hbd, hcd, ?_⟩
        rw [heq]
        simp
      · subst hnl
        right
        obtain ⟨a, b, c, ha6, hb12, hc8, had, hbd, hcd, heq⟩ :=
          (sidRest_some_iff s.data ['\n']).mp hr
        refine ⟨a ++ '-' :: (b ++ '-' :: c), ?_, a, b, c,
          ha6, hb12, hc8, had, hbd, hcd, rfl⟩
        rw [heq]
        simp
    · rintro (hspec | ⟨l, hl, hspec⟩)
      · obtain ⟨a, b, c, ha6, hb12, hc8, had, hbd, hcd, heq⟩ := hspec
        have : sidRest s.data = some [] := by
          rw [sidRest_some_iff]
          refine ⟨a, b, c, ha6, hb12, hc8, had, hbd, hcd, ?_⟩
          rw [heq]
          simp
        rw [hr] at this
        injection this with hh
        exact Or.inl hh
      · obtain ⟨a, b, c, ha6, hb12, hc8, had, hbd, hcd, heq⟩ := hspec
        have : sidRest s.data = some ['\n'] := by
          rw [sidRest_some_iff]
          refine ⟨a, b, c, ha6, hb12, hc8, had, hbd, hcd, ?_⟩
          rw [hl, heq]
          simp
        rw [hr] at this
        injection this with hh
        exact Or.inr hh

/-- Successful `Sid` construction yields the wrapped string. -/
theorem sid_make_ok (s : String) (h : sidIsValid s = true) :
    Sid.make s = .ok ⟨s, h⟩ := by
  unfold Sid.make
  rw [dif_pos h]

/-- Error shape of `World.make`. -/
theorem world_make_error_iff (locs : List (Sid × Game.Location)) (sid : Sid) :
    (∃ e, Game.World.make locs sid = .error e) ↔ dictGet sid locs = none := by
  unfold Game.World.make
  by_cases h : (dictGet sid locs).isSome = true
  · rw [dif_pos h]
    simp only [Option.isSome_iff_exists] at h
    obtain ⟨v, hv⟩ := h
    simp [hv]
  · rw [dif_neg h]
    simp only [Option.isSome_iff_exists] at h
    push_neg at h
    cases hg : dictGet sid locs with
    | none => simp
    | some v => exact absurd hg (h v)

/-- Field recovery from a successful `World.make`. -/
theorem world_make_ok_elim (locs : List (Sid × Game.Location)) (sid : Sid)
    (w : Game.World) (h : Game.World.make locs sid = .ok w) :
    w.locations = locs ∧ w.startingLocationSid = sid ∧
      dictGet sid locs = some w.get_starting_location := by
  unfold Game.World.make at h
  by_cases hs : (dictGet sid locs).isSome = true
  · rw [dif_pos hs] at h
    cases h
    exact ⟨rfl, rfl, (Option.some_get hs).symm⟩
  · rw [dif_neg hs] at h
    cases h

/-- Unfolding of `addedSids` on an add call. -/
theorem addedSids_cons_add (loc : Game.Location) (rest : List Game.BuilderOp) :
    Game.addedSids (.addLocation loc :: rest) = loc.sid :: Game.addedSids rest := rfl

/-- Unfolding of `addedSids` on a set call. -/
theorem addedSids_cons_set (sid : Sid) (rest : List Game.BuilderOp) :
    Game.addedSids (.setStartingLocation sid :: rest) = Game.addedSids rest := rfl

/-- The builder's starting sid after a call sequence is the last one set. -/
theorem applyOps_starting (ops : List Game.BuilderOp) (b : Game.WorldBuilder) :
    (Game.applyOps ops b).startingLocationSid =
      Game.lastSetFrom b.startingLocationSid ops := by
  induction ops generalizing b with
  | nil => rfl
  | cons op rest ih =>
    cases op with
    | addLocation loc =>
      simpa [Game.applyOps, Game.lastSetFrom, Game.WorldBuilder.add_location] using
        ih (b.add_location loc)
    | setStartingLocation sid =>
      simpa [Game.applyOps, Game.lastSetFrom, Game.WorldBuilder.set_starting_location] using
        ih (b.set_starting_location sid)

/-- The builder's accumulated keys are exactly the added sids. -/
theorem applyOps_mem (ops : List Game.BuilderOp) (b : Game.WorldBuilder) (s : Sid) :
    (dictGet s (Game.applyOps ops b).locations).isSome = true ↔
      s ∈ Game.addedSids ops ∨ (dictGet s b.locations).isSome = true := by
  induction ops generalizing b with
  | nil => simp [Game.applyOps, Game.addedSids]
  | cons op rest ih =>
    cases op with
    | addLocation loc =>
      have step : Game.applyOps (.addLocation loc :: rest) b =
          Game.applyOps rest (b.add_location loc) := rfl
      rw [step, ih, addedSids_cons_add]
      simp only [Game.WorldBuilder.add_location, dictGet_insert]
      by_cases hs : loc.sid = s
      · subst hs
        simp
      · have hs2 : ¬ (s = loc.sid) := fun hh => hs hh.symm
        simp [hs, hs2]
    | setStartingLocation sid =>
      have step : Game.applyOps (.setStartingLocation sid :: rest) b =
          Game.applyOps rest (b.set_starting_location sid) := rfl
      rw [step, ih, addedSids_cons_set]
      simp [Game.WorldBuilder.set_starting_location]

/-- Exits after a sequence of `add_exit` calls are the folded dict inserts. -/
theorem exits_applyAddExits (calls : List (Kata.Direction × Option Sid))
    (loc : Kata.Location) :
    (Kata.applyAddExits calls loc).exits =
      calls.foldl (fun e c => dictInsert c.1 c.2 e) loc.exits := by
  induction calls generalizing loc with
  | nil => rfl
  | cons c rest ih =>
    simpa [Kata.applyAddExits, Kata.Location.add_exit] using
      ih (loc.add_exit c.1 c.2)

/-- Lookup in folded dict inserts is the last write. -/
theorem foldGet (calls : List (Kata.Direction × Option Sid))
    (e : List (Kata.Direction × Option Sid)) (d : Kata.Direction) :
    dictGet d (calls.foldl (fun e c => dictInsert c.1 c.2 e) e) =
      Kata.lastExitWrite d (dictGet d e) calls := by
  induction calls generalizing e with
  | nil => rfl
  | cons c rest ih =>
    simp only [List.foldl_cons, Kata.lastExitWrite] at ih ⊢
    rw [ih, dictGet_insert]

/-- Keys of folded dict inserts are in first-occurrence order. -/
theorem foldKeys (calls : List (Kata.Direction × Option Sid))
    (e : List (Kata.Direction × Option Sid)) :
    (calls.foldl (fun e c => dictInsert c.1 c.2 e) e).map Prod.fst =
      firstOccFrom (e.map Prod.fst) (calls.map (·.1)) := by
  induction calls generalizing e with
  | nil => rfl
  | cons c rest ih =>
    simp only [List.foldl_cons, List.map_cons, firstOccFrom] at ih ⊢
    rw [ih, keys_insert]

/-- Successful `Player.create` shape. -/
theorem player_create_ok (sid : Sid) (name : String) (loc : Kata.Location)
    (bag : Kata.Bag) (hname : pyStrip name ≠ "") :
    Kata.Player.create sid name loc bag =
      .ok { sid, name := pyStrip name, location := loc, bag, is_active := true } := by
  unfold Kata.Player.create
  rw [if_neg hname]

/-- Failing `Player.create` shape. -/
theorem player_create_error (sid : Sid) (name : String) (loc : Kata.Location)
    (bag : Kata.Bag) (hname : pyStrip name = "") :
    Kata.Player.create sid name loc bag = .error "Player name cannot be empty" := by
  unfold Kata.Player.create
  rw [if_pos hname]

/-- Happy path of `execute`. -/
theorem execute_success_of (loc : Kata.Location) (cmd : Kata.StartGameCommand)
    (hsid : sidIsValid cmd.player_sid = true) (hname : pyStrip cmd.player_name ≠ "") :
    Kata.execute (some loc) cmd =
      Kata.StartGameResponse.success_response (Kata.convert_player_to_data
        { sid := ⟨cmd.player_sid, hsid⟩, name := pyStrip cmd.player_name,
          location := loc, bag := {}, is_active := true }) := by
  simp [Kata.execute, sid_make_ok cmd.player_sid hsid,
    player_create_ok _ _ loc {} hname]

/-- Empty-name path of `execute`. -/
theorem execute_empty_name_of (loc : Kata.Location) (cmd : Kata.StartGameCommand)
    (hsid : sidIsValid cmd.player_sid = true) (hname : pyStrip cmd.player_name = "") :
    Kata.execute (some loc) cmd =
      Kata.StartGameResponse.error_response "Player name cannot be empty" := by
  simp [Kata.execute, sid_make_ok cmd.player_sid hsid,
    player_create_error _ _ loc {} hname]

/-- Adding a duplicate-sid item to a location is a no-op. -/
theorem location_add_item_of_dup (loc : Kata.Location) (item : Kata.Item)
    (h : ∃ i ∈ loc.items, i.sid = item.sid) : loc.add_item item = loc := by
  obtain ⟨i, hi, hsid⟩ := h
  unfold Kata.Location.add_item
  have hany : loc.items.any (fun i => i.eqv item) = true :=
    List.any_eq_true.mpr ⟨i, hi, by simp [Kata.Item.eqv, hsid]⟩
  rw [if_pos hany]

/-- Heap reads through a different reference are unaffected by a write. -/
theorem heap_read_write_ne (h : Game.Heap) (r q : Nat)
    (d : List (Sid × Game.Location)) (hne : q ≠ r) :
    (h.write r d).read q = h.read q := by
  simp [Game.Heap.write, Game.Heap.read, hne]

/-- A dict mutation touches only its own reference. -/
theorem applyDictOp_read_ne (h : Game.Heap) (r q : Nat) (op : Game.DictOp) (hne : q ≠ r) :
    (Game.applyDictOp h r op).read q = h.read q := by
  cases op <;> simp [Game.applyDictOp, heap_read_write_ne, hne]

/-- A sequence of dict mutations touches only its own reference. -/
theorem applyDictOps_read_ne (ops : List Game.DictOp) (h : Game.Heap) (r q : Nat)
    (hne : q ≠ r) : (Game.applyDictOps h r ops).read q = h.read q := by
  induction ops generalizing h with
  | nil => rfl
  | cons op rest ih =>
    have step : Game.applyDictOps h r (op :: rest) =
        Game.applyDictOps (Game.applyDictOp h r op) r rest := rfl
    rw [step, ih, applyDictOp_read_ne _ _ _ _ hne]

/-- Three distinct keys inserted into an empty dict, in order. -/
theorem dictInsert_three (e n ea : Sid) (hen : e ≠ n) (hea : e ≠ ea) (hnea : n ≠ ea)
    (v1 v2 v3 : Game.Location) :
    dictInsert ea v3 (dictInsert n v2 (dictInsert e v1 [])) =
      [(e, v1), (n, v2), (ea, v3)] := by
  simp [dictInsert, hen, hea, hnea]


/-! ## Claim theorems -/

/-- C1 (amended): for every start-game command whose player name is
non-empty after trimming and whose player sid is a valid 6-12-8
identifier, executed against a starting location satisfying the location
invariant (non-blank description), the use case returns success, the
supplied sid, a non-empty location description, and an empty bag items
list. -/
theorem start_game_success_spec (loc : Kata.Location) (cmd : Kata.StartGameCommand)
    (hname : pyStrip cmd.player_name ≠ "")
    (hsid : sidIsValid cmd.player_sid = true)
    (hdesc : pyStrip loc.description ≠ "") :
    (Kata.execute (some loc) cmd).success = true ∧
    ∃ pd : Kata.PlayerData,
      Kata.execute (some loc) cmd = Kata.StartGameResponse.success_response pd ∧
      pd.sid = cmd.player_sid ∧ pd.location.description ≠ "" ∧ pd.bag.items = [] := by
  rw [execute_success_of loc cmd hsid hname]
  have hdesc2 : loc.description ≠ "" := by
    intro hh
    apply hdesc
    rw [hh]
    decide
  exact ⟨rfl, _, rfl, rfl, hdesc2, rfl⟩

/-- C1 witness: the success path evaluated for the name "Pedro" at a
concrete starting location. -/
theorem start_game_success_spec_witness :
    (Kata.execute (some sampleKataLocation)
      { player_name := "Pedro", player_sid := "100000-100000000000-10000000" }).success
        = true ∧
    ∃ pd : Kata.PlayerData,
      Kata.execute (some sampleKataLocation)
        { player_name := "Pedro", player_sid := "100000-100000000000-10000000" } =
          Kata.StartGameResponse.success_response pd ∧
      pd.sid = "100000-100000000000-10000000" ∧
      pd.location.description ≠ "" ∧ pd.bag.items = [] :=
  start_game_success_spec sampleKataLocation
    { player_name := "Pedro", player_sid := "100000-100000000000-10000000" }
    (by decide) (by decide) (by decide)

/-- C1 counterexample: the name " " is non-empty as a string, the sid is
valid, the world has a starting location, and yet the response is a
failure: the claim's "any non-empty name" is too broad, the code rejects
names that are blank after trimming. -/
theorem start_game_whitespace_name_counterexample :
    (" " : String) ≠ "" ∧
    sidIsValid "100000-100000000000-10000000" = true ∧
    (Kata.execute (some sampleKataLocation)
      { player_name := " ", player_sid := "100000-100000000000-10000000" }).success
        = false := by
  refine ⟨by decide, by decide, by decide⟩

/-- C2 (amended): `Sid` construction succeeds exactly on strings matching
the 6-12-8 pattern followed by nothing more or by one trailing newline
(Python's `$` also matches just before a final newline), and then
`str(Sid(s))` equals `s`. -/
theorem sid_construction_vs_pattern (s : String) :
    ((∃ sid, Sid.make s = .ok sid) ↔
      (SpecSidPattern s.data ∨ ∃ l, s.data = l ++ ['\n'] ∧ SpecSidPattern l)) ∧
    ∀ sid, Sid.make s = .ok sid → sid.str = s := by
  constructor
  · rw [← sidIsValid_iff]
    unfold Sid.make
    by_cases h : sidIsValid s = true
    · rw [dif_pos h]
      simp [h]
    · rw [dif_neg h]
      simp [h]
  · intro sid hsid
    unfold Sid.make at hsid
    by_cases h : sidIsValid s = true
    · rw [dif_pos h] at hsid
      cases hsid
      rfl
    · rw [dif_neg h] at hsid
      cases hsid

/-- C2 counterexample: a valid sid body with a trailing newline is NOT the
6-12-8 pattern "and nothing more", yet `Sid` construction succeeds, so
construction does not fail exactly on non-matching strings as claimed. -/
theorem sid_trailing_newline_counterexample :
    (∃ sid, Sid.make "123456-123456789012-12345678\n" = .ok sid) ∧
    ¬ SpecSidPattern ("123456-123456789012-12345678\n".data) := by
  constructor
  · exact ⟨⟨"123456-123456789012-12345678\n", by decide⟩, by decide⟩
  · rintro ⟨a, b, c, ha6, hb12, hc8, -, -, -, heq⟩
    have hlen : ("123456-123456789012-12345678\n".data).length = 28 := by
      rw [heq]
      simp [ha6, hb12, hc8]
    have hlen2 : ("123456-123456789012-12345678\n".data).length = 29 := by decide
    omega

/-- C3: `Player.create` trims and stores non-blank names and rejects blank
ones with "Player name cannot be empty"; a start-game command carrying a
blank name (with a valid sid and a starting location, as in the spec's
scenario) yields a failure response with exactly that message. -/
theorem player_name_validation_spec :
    (∀ (sid : Sid) (name : String) (loc : Kata.Location) (bag : Kata.Bag),
      (pyStrip name ≠ "" →
        ∃ p, Kata.Player.create sid name loc bag = .ok p ∧ p.name = pyStrip name) ∧
      (pyStrip name = "" →
        Kata.Player.create sid name loc bag = .error "Player name cannot be empty")) ∧
    (∀ (loc : Kata.Location) (cmd : Kata.StartGameCommand),
      pyStrip cmd.player_name = "" → sidIsValid cmd.player_sid = true →
      Kata.execute (some loc) cmd =
        { success := false, player_data := none,
          error_message := some "Player name cannot be empty" }) := by
  constructor
  · intro sid name loc bag
    constructor
    · intro h
      exact ⟨_, player_create_ok sid name loc bag h, rfl⟩
    · intro h
      exact player_create_error sid name loc bag h
  · intro loc cmd hname hsid
    rw [execute_empty_name_of loc cmd hsid hname]
    rfl

/-- C4: `World` construction fails exactly when the starting sid is not a
key of the locations mapping, and on success `get_starting_location`
returns exactly the mapped location (total, never an absence signal). -/
theorem world_make_starting_spec (locs : List (Sid × Game.Location)) (sid : Sid) :
    ((∃ e, Game.World.make locs sid = .error e) ↔ dictGet sid locs = none) ∧
    ∀ w, Game.World.make locs sid = .ok w →
      dictGet sid locs = some w.get_starting_location := by
  refine ⟨world_make_error_iff locs sid, ?_⟩
  intro w hw
  exact (world_make_ok_elim locs sid w hw).2.2

/-- C5: for every call sequence on a fresh builder, `_build()` fails
exactly when no starting location was set or the last one set was never
added, and on success the world's starting sid is the one set. -/
theorem builder_build_spec (ops : List Game.BuilderOp) :
    ((∃ e, (Game.applyOps ops Game.WorldBuilder.empty).build = .error e) ↔
      (Game.lastSetFrom none ops = none ∨
        ∃ s, Game.lastSetFrom none ops = some s ∧ s ∉ Game.addedSids ops)) ∧
    ∀ w, (Game.applyOps ops Game.WorldBuilder.empty).build = .ok w →
      some w.startingLocationSid = Game.lastSetFrom none ops := by
  have hstart : (Game.applyOps ops Game.WorldBuilder.empty).startingLocationSid =
      Game.lastSetFrom none ops := applyOps_starting ops Game.WorldBuilder.empty
  have hmem : ∀ s : Sid,
      (dictGet s (Game.applyOps ops Game.WorldBuilder.empty).locations).isSome = true ↔
        s ∈ Game.addedSids ops := by
    intro s
    rw [applyOps_mem]
    have hempt : (dictGet s Game.WorldBuilder.empty.locations) = none := rfl
    simp [hempt]
  cases hs : (Game.applyOps ops Game.WorldBuilder.empty).startingLocationSid with
  | none =>
    have hbuild : (Game.applyOps ops Game.WorldBuilder.empty).build =
        .error "Starting location must be set before building world" := by
      unfold Game.WorldBuilder.build
      rw [hs]
    rw [hs] at hstart
    constructor
    · rw [hbuild]
      constructor
      · intro _
        exact Or.inl hstart.symm
      · intro _
        exact ⟨_, rfl⟩
    · intro w hw
      rw [hbuild] at hw
      cases hw
  | some sid =>
    have hbuild : (Game.applyOps ops Game.WorldBuilder.empty).build =
        Game.World.make (Game.applyOps ops Game.WorldBuilder.empty).locations sid := by
      unfold Game.WorldBuilder.build
      rw [hs]
    rw [hs] at hstart
    rw [hbuild]
    constructor
    · rw [world_make_error_iff]
      constructor
      · intro hnone
        refine Or.inr ⟨sid, hstart.symm, ?_⟩
        intro hin
        rw [← hmem sid] at hin
        rw [hnone] at hin
        cases hin
      · rintro (hnone | ⟨s, hset, hnot⟩)
        · rw [← hstart] at hnone
          cases hnone
        · rw [← hstart] at hset
          injection hset with hseq
          subst hseq
          cases hg : dictGet sid (Game.applyOps ops Game.WorldBuilder.empty).locations with
          | none => rfl
          | some v =>
            exfalso
            apply hnot
            rw [← hmem sid, hg]
            rfl
    · intro w hw
      obtain ⟨-, hsid, -⟩ := world_make_ok_elim _ _ _ hw
      rw [hsid, ← hstart]

/-- C6 (amended): for pairwise-distinct location identifiers (the torch
identifier unconstrained), `create_starter_world` returns a world of
exactly three locations whose starting location's description contains
"entrance hall" and "Katacombs", with available directions north and east
and exactly one pick/use "Torch" item; no prior builder state leaks (the
result equals the fresh-builder result). -/
theorem create_starter_world_spec (b : Game.WorldBuilder) (e n ea t : Sid)
    (hen : e ≠ n) (hea : e ≠ ea) (hnea : n ≠ ea) :
    ∃ w : Game.World, b.create_starter_world e n ea t = .ok w ∧
      w.locations.length = 3 ∧
      isSubstring "entrance hall".data w.get_starting_location.description.data = true ∧
      isSubstring "Katacombs".data w.get_starting_location.description.data = true ∧
      w.get_starting_location.get_available_directions =
        [Game.Direction.north, Game.Direction.east] ∧
      w.get_starting_location.items.map (fun i => (i.name, i.available_actions)) =
        [("Torch", [Game.Action.pick, Game.Action.use])] ∧
      b.create_starter_world e n ea t =
        Game.WorldBuilder.empty.create_starter_world e n ea t := by
  have hrun : b.create_starter_world e n ea t =
      Game.World.make
        [(e, { sid := e,
               description := "You are in the entrance hall of the ancient Katacombs. " ++
                 "Torches flicker on the stone walls, casting dancing shadows. " ++
                 "You can feel a cool breeze coming from deeper in the tunnels.",
               exits := [(Game.Direction.north, some n), (Game.Direction.east, some ea)],
               items := [{ sid := t,
                           name := "Torch",
                           description := "A flickering torch that provides light in the darkness",
                           available_actions := [Game.Action.pick, Game.Action.use] }] }),
         (n, { sid := n,
               description := "A narrow stone corridor extends to the north. The walls are carved with ancient symbols.",
               exits := [(Game.Direction.south, some e)],
               items := [] }),
         (ea, { sid := ea,
                description := "A small chamber with a low ceiling. Water drips steadily from somewhere above.",
                exits := [(Game.Direction.west, some e)],
                items := [] })] e := by
    unfold Game.WorldBuilder.create_starter_world
    dsimp only
    rw [show Game.WorldBuilder.empty.locations = [] from rfl]
    simp only [Game.Location.add_exit, Game.Location.add_item]
    rw [dictInsert_three e n ea hen hea hnea]
    rfl
  set entR : Game.Location :=
    { sid := e,
      description := "You are in the entrance hall of the ancient Katacombs. " ++
        "Torches flicker on the stone walls, casting dancing shadows. " ++
        "You can feel a cool breeze coming from deeper in the tunnels.",
      exits := [(Game.Direction.north, some n), (Game.Direction.east, some ea)],
      items := [{ sid := t,
                  name := "Torch",
                  description := "A flickering torch that provides light in the darkness",
                  available_actions := [Game.Action.pick, Game.Action.use] }] } with hent
  set northR : Game.Location :=
    { sid := n,
      description := "A narrow stone corridor extends to the north. The walls are carved with ancient symbols.",
      exits := [(Game.Direction.south, some e)],
      items := [] } with hnorth
  set eastR : Game.Location :=
    { sid := ea,
      description := "A small chamber with a low ceiling. Water drips steadily from somewhere above.",
      exits := [(Game.Direction.west, some e)],
      items := [] } with heast
  have hget : dictGet e [(e, entR), (n, northR), (ea, eastR)] = some entR := by
    simp [dictGet]
  have hsome : (dictGet e [(e, entR), (n, northR), (ea, eastR)]).isSome = true := by
    rw [hget]
    rfl
  have hok : Game.World.make [(e, entR), (n, northR), (ea, eastR)] e =
      .ok ⟨[(e, entR), (n, northR), (ea, eastR)], e, hsome⟩ := by
    unfold Game.World.make
    rw [dif_pos hsome]
  have hstart : (⟨[(e, entR), (n, northR), (ea, eastR)], e, hsome⟩ :
      Game.World).get_starting_location = entR := by
    unfold Game.World.get_starting_location
    simp [dictGet]
  refine ⟨⟨[(e, entR), (n, northR), (ea, eastR)], e, hsome⟩, ?_, rfl, ?_, ?_, ?_, ?_, rfl⟩
  · rw [hrun, hok]
  · rw [hstart, hent]
    dsimp only
    decide
  · rw [hstart, hent]
    dsimp only
    decide
  · rw [hstart, hent]
    rfl
  · rw [hstart, hent]
    rfl

/-- C6 witness: the starter world built from four concrete distinct
identifiers. -/
theorem create_starter_world_spec_witness :
    ∃ w : Game.World,
      Game.WorldBuilder.empty.create_starter_world
        sampleSid1 sampleSid2 sampleSid3 sampleSid4 = .ok w ∧
      w.locations.length = 3 ∧
      isSubstring "entrance hall".data w.get_starting_location.description.data = true ∧
      isSubstring "Katacombs".data w.get_starting_location.description.data = true ∧
      w.get_starting_location.get_available_directions =
        [Game.Direction.north, Game.Direction.east] ∧
      w.get_starting_location.items.map (fun i => (i.name, i.available_actions)) =
        [("Torch", [Game.Action.pick, Game.Action.use])] ∧
      Game.WorldBuilder.empty.create_starter_world
          sampleSid1 sampleSid2 sampleSid3 sampleSid4 =
        Game.WorldBuilder.empty.create_starter_world
          sampleSid1 sampleSid2 sampleSid3 sampleSid4 :=
  create_starter_world_spec Game.WorldBuilder.empty
    sampleSid1 sampleSid2 sampleSid3 sampleSid4 (by decide) (by decide) (by decide)

/-- C6 counterexample: with the four supplied identifiers all equal (the
claim quantifies over every four identifiers), the built world has one
location, not three, and its starting description is the east chamber's,
which does not contain "entrance hall". -/
theorem create_starter_world_collision_counterexample :
    (Game.WorldBuilder.empty.create_starter_world
        sampleSid1 sampleSid1 sampleSid1 sampleSid1).toOption.map
      (fun w => (w.locations.length,
        isSubstring "entrance hall".data w.get_starting_location.description.data)) =
      some (1, false) := by
  decide

/-- C7: after any sequence of `add_exit` calls on a location constructed
with no exits, `get_available_directions` holds exactly the directions
whose last written destination is non-null (membership), is a sublist of
the keys in first-insertion order (stable dict order), and has no
duplicates; so it is exactly the non-null-destination directions in the
mapping's stable insertion order. -/
theorem location_available_directions_spec
    (calls : List (Kata.Direction × Option Sid)) (sid : Sid) (desc : String) :
    (∀ d : Kata.Direction,
        d ∈ (Kata.applyAddExits calls
            { sid := sid, description := desc }).get_available_directions ↔
          ∃ v, Kata.lastExitWrite d none calls = some (some v)) ∧
    (Kata.applyAddExits calls
        { sid := sid, description := desc }).get_available_directions.Sublist
      (firstOccFrom [] (calls.map (·.1))) ∧
    (Kata.applyAddExits calls
        { sid := sid, description := desc }).get_available_directions.Nodup := by
  have hEfold : (Kata.applyAddExits calls { sid := sid, description := desc }).exits =
      calls.foldl (fun e c => dictInsert c.1 c.2 e) [] := by
    rw [exits_applyAddExits]
  set E := (Kata.applyAddExits calls { sid := sid, description := desc }).exits with hE
  have hkeys : E.map Prod.fst = firstOccFrom [] (calls.map (·.1)) := by
    rw [hEfold, foldKeys]
    rfl
  have hnodup : (E.map Prod.fst).Nodup := by
    rw [hkeys]
    exact firstOccFrom_nodup _ _ List.nodup_nil
  have hget : ∀ d, dictGet d E = Kata.lastExitWrite d none calls := by
    intro d
    rw [hEfold, foldGet]
    rfl
  have havail : (Kata.applyAddExits calls
      { sid := sid, description := desc }).get_available_directions =
      (E.filter (fun p => p.2.isSome)).map Prod.fst := rfl
  refine ⟨?_, ?_, ?_⟩
  · intro d
    rw [havail]
    constructor
    · intro hd
      obtain ⟨p, hp, hpd⟩ := List.mem_map.mp hd
      obtain ⟨hpe, hps⟩ := List.mem_filter.mp hp
      obtain ⟨v, hv⟩ := Option.isSome_iff_exists.mp hps
      refine ⟨v, ?_⟩
      rw [← hget d]
      have hpeq : p = (d, some v) := by
        rw [← hpd, ← hv]
      rw [hpeq] at hpe
      exact (dictGet_eq_some_iff_mem E hnodup d (some v)).mpr hpe
    · rintro ⟨v, hv⟩
      rw [← hget d] at hv
      have hmem : (d, some v) ∈ E := (dictGet_eq_some_iff_mem E hnodup d (some v)).mp hv
      exact List.mem_map.mpr ⟨(d, some v), List.mem_filter.mpr ⟨hmem, rfl⟩, rfl⟩
  · rw [havail, ← hkeys]
    exact List.Sublist.map Prod.fst (List.filter_sublist E)
  · rw [havail]
    exact List.Nodup.sublist (List.Sublist.map Prod.fst (List.filter_sublist E)) hnodup

/-- C8 (amended): for a well-formed identifier string with no stored
player, `get_player_details` returns the absence signal `None` without
raising; for a malformed string, the `Sid` constructor raises and the
error propagates out of the lookup, contrary to the claim's
"never raises". -/
theorem get_player_details_spec (players : List (Sid × Game.Player))
    (world : Game.World) (s : String) :
    (∀ h : sidIsValid s = true, dictGet (⟨s, h⟩ : Sid) players = none →
      Game.get_player_details players world s = .ok none) ∧
    (sidIsValid s = false →
      Game.get_player_details players world s = .error ("Invalid Sid format: " ++ s)) := by
  constructor
  · intro h hnone
    have hmake : Sid.make s = .ok ⟨s, h⟩ := sid_make_ok s h
    simp [Game.get_player_details, hmake, hnone]
  · intro h
    have hmake : Sid.make s = .error ("Invalid Sid format: " ++ s) := by
      unfold Sid.make
      rw [dif_neg (by simp [h])]
    simp [Game.get_player_details, hmake]

/-- C8 counterexample: for the malformed string "not-a-sid" (for which,
in particular, no player is stored), the lookup raises `ValueError`
instead of returning an absence signal. -/
theorem get_player_details_raises_counterexample :
    Game.get_player_details [] sampleGameWorld "not-a-sid" =
      .error "Invalid Sid format: not-a-sid" := by
  decide

/-- C9: `get_all_locations` allocates a fresh copy of the backing dict,
so any sequence of insertions and deletions on the returned dict leaves
every later `has_location` and `get_location` on the same world
unchanged. -/
theorem get_all_locations_copy_spec (h : Game.Heap) (w : Game.WorldRef)
    (ops : List Game.DictOp) (sid : Sid) (hv : w.locationsRef < h.next) :
    Game.hasLocationH (Game.applyDictOps (Game.getAllLocationsH h w).1
        (Game.getAllLocationsH h w).2 ops) w sid = Game.hasLocationH h w sid ∧
    Game.getLocationH (Game.applyDictOps (Game.getAllLocationsH h w).1
        (Game.getAllLocationsH h w).2 ops) w sid = Game.getLocationH h w sid := by
  have hfresh : (Game.getAllLocationsH h w).2 = h.next := rfl
  have hne : w.locationsRef ≠ (Game.getAllLocationsH h w).2 := by
    rw [hfresh]
    omega
  have halloc : (Game.getAllLocationsH h w).1.read w.locationsRef =
      h.read w.locationsRef := by
    show Game.Heap.read _ w.locationsRef = _
    have hne2 : w.locationsRef ≠ h.next := by omega
    simp [Game.getAllLocationsH, Game.Heap.alloc, Game.Heap.read, hne2]
  have hread : (Game.applyDictOps (Game.getAllLocationsH h w).1
      (Game.getAllLocationsH h w).2 ops).read w.locationsRef = h.read w.locationsRef := by
    rw [applyDictOps_read_ne _ _ _ _ hne, halloc]
  constructor
  · unfold Game.hasLocationH
    rw [hread]
  · unfold Game.getLocationH
    rw [hread]

/-- C9 witness: deleting the starting location from the returned copy of
a concrete one-location world leaves lookups on the world unchanged. -/
theorem get_all_locations_copy_spec_witness :
    Game.hasLocationH (Game.applyDictOps (Game.getAllLocationsH sampleHeap sampleWorldRef).1
        (Game.getAllLocationsH sampleHeap sampleWorldRef).2 [Game.DictOp.erase sampleSid1])
      sampleWorldRef sampleSid1 = Game.hasLocationH sampleHeap sampleWorldRef sampleSid1 ∧
    Game.getLocationH (Game.applyDictOps (Game.getAllLocationsH sampleHeap sampleWorldRef).1
        (Game.getAllLocationsH sampleHeap sampleWorldRef).2 [Game.DictOp.erase sampleSid1])
      sampleWorldRef sampleSid1 = Game.getLocationH sampleHeap sampleWorldRef sampleSid1 :=
  get_all_locations_copy_spec sampleHeap sampleWorldRef
    [Game.DictOp.erase sampleSid1] sampleSid1 (by decide)

/-- C10 (amended): adding a duplicate-sid item to a `Location` is a
silent no-op and `Location.add_item` is idempotent; on a `Bag` the
duplicate add is a silent no-op only when the bag is not full, because
the capacity check precedes the membership check. -/
theorem add_item_duplicate_spec (loc : Kata.Location) (bag : Kata.Bag) (item : Kata.Item) :
    ((∃ i ∈ loc.items, i.sid = item.sid) → loc.add_item item = loc) ∧
    ((loc.add_item item).add_item item = loc.add_item item) ∧
    (bag.is_full = false → (∃ i ∈ bag.items, i.sid = item.sid) →
      bag.add_item item = .ok bag) := by
  refine ⟨location_add_item_of_dup loc item, ?_, ?_⟩
  · refine location_add_item_of_dup _ item ?_
    unfold Kata.Location.add_item
    by_cases h : loc.items.any (fun i => i.eqv item) = true
    · rw [if_pos h]
      obtain ⟨i, hi, he⟩ := List.any_eq_true.mp h
      exact ⟨i, hi, by simpa [Kata.Item.eqv] using he⟩
    · rw [if_neg h]
      exact ⟨item, by simp, rfl⟩
  · intro hfull hdup
    obtain ⟨i, hi, hsid⟩ := hdup
    unfold Kata.Bag.add_item
    rw [if_neg (by simp [hfull]), if_pos (List.any_eq_true.mpr
      ⟨i, hi, by simp [Kata.Item.eqv, hsid]⟩)]

/-- C10 counterexample: a full bag already containing an item with the
same sid raises the capacity error instead of silently ignoring the
duplicate add. -/
theorem bag_full_duplicate_counterexample :
    (∃ i ∈ ({ items := [sampleKataItem], max_capacity := 1 } : Kata.Bag).items,
      i.sid = sampleKataItem.sid) ∧
    ({ items := [sampleKataItem], max_capacity := 1 } : Kata.Bag).add_item sampleKataItem =
      .error "Bag is full, cannot add more items" := by
  constructor
  · exact ⟨sampleKataItem, by simp, rfl⟩
  · decide

end HexKit
